import Mathlib

/-!
Verification of the PrizePicks-vs-Pinnacle odds-comparison repository.

The repository ships the React frontend (`frontend/src/App.tsx`) and a README;
the Python backend (OddsConverter, the two SourceFetchers, PropMatcher,
RefreshScheduler, ComparisonService) is not part of the checked-out sources,
so those components are modelled from the specification, as marked on each
definition.  Frontend definitions are shallow embeddings of `App.tsx`:
JavaScript numbers are modelled as exact rationals (`ℚ`), strings as Lean
`String`, and JSON payloads as an inductive `Json` type.
-/

namespace OddsCore

/-- Error raised by the odds converter on unrepresentable input. -/
inductive OddsError where
  | invalidOdds
  | invalidMarket
deriving DecidableEq, Repr

/-- Modelled from the spec: `american_to_decimal(odds: int) -> float`
(§4.1 OddsConverter, absent from src/).  For odds ≥ 100 it returns
`1 + odds/100`; for odds ≤ -100 it returns `1 + 100/|odds|`; for odds
strictly between -100 and 100 it fails with `InvalidOddsError`. -/
def american_to_decimal (odds : Int) : Except OddsError ℚ :=
  if odds ≥ 100 then .ok (1 + (odds : ℚ) / 100)
  else if odds ≤ -100 then .ok (1 + 100 / ((-odds : Int) : ℚ))
  else .error .invalidOdds

/-- Modelled from the spec: `decimal_to_implied_prob(decimal_odds) = 1/decimal_odds`,
requiring `decimal_odds > 1` (§4.1, absent from src/). -/
def decimal_to_implied_prob (decimal_odds : ℚ) : Except OddsError ℚ :=
  if decimal_odds > 1 then .ok (1 / decimal_odds) else .error .invalidOdds

/-- Modelled from the spec: `no_vig_probabilities(over_decimal, under_decimal)`
(§4.1, absent from src/).  Raw implied probabilities `p_o = 1/over`,
`p_u = 1/under` are normalized to `p_o/(p_o+p_u)` and `p_u/(p_o+p_u)`;
inputs ≤ 1 or a degenerate market fail. -/
def no_vig_probabilities (over_decimal under_decimal : ℚ) :
    Except OddsError (ℚ × ℚ) :=
  if over_decimal ≤ 1 ∨ under_decimal ≤ 1 then .error .invalidMarket
  else if 1 / over_decimal + 1 / under_decimal ≤ 0 then .error .invalidMarket
  else .ok ((1 / over_decimal) / (1 / over_decimal + 1 / under_decimal),
            (1 / under_decimal) / (1 / over_decimal + 1 / under_decimal))

end OddsCore

/-- A JSON value, the wire format between the backend's `/props` endpoint and
the frontend.  Numbers are modelled exactly as rationals. -/
inductive Json where
  | jnum (q : ℚ)
  | jstr (s : String)
  | jarr (xs : List Json)
  | jobj (fields : List (String × Json))

namespace Json

/-- Key list of a JSON object (empty for non-objects). -/
def keys : Json → List String
  | .jobj fields => fields.map (·.1)
  | _ => []

/-- Look up a key in a JSON object. -/
def lookup (k : String) : Json → Option Json
  | .jobj fields => (fields.find? (fun f => f.1 = k)).map (·.2)
  | _ => none

/-- Whether a key is present in a JSON object. -/
def hasKey (k : String) (j : Json) : Bool := (j.lookup k).isSome

/-- Whether the value is a number. -/
def isNum : Json → Bool
  | .jnum _ => true
  | _ => false

/-- Whether the value is a string. -/
def isStr : Json → Bool
  | .jstr _ => true
  | _ => false

end Json

namespace Backend

/-- Modelled from the spec: `ComparisonRecord` (§3, backend absent from src/):
player, prop type, line, the retail American price, the reference decimal
prices, and the two no-vig fields. -/
structure ComparisonRecord where
  player_name : String
  prop_type : String
  line : ℚ
  prizepicks_odds : Int
  pinnacle_over : ℚ
  pinnacle_under : ℚ
  no_vig_over : ℚ
  no_vig_under : ℚ
deriving DecidableEq, Repr

/-- Modelled from the spec: `Snapshot` (§3, backend absent from src/):
props, epoch-seconds timestamp, status string, optional disclaimer. -/
structure Snapshot where
  props : List ComparisonRecord
  last_updated : Int
  status : String
  disclaimer : Option String
deriving DecidableEq, Repr

/-- Modelled from the spec: serialization of one `ComparisonRecord` as an
element of the `props` array (§6, backend absent from src/). -/
def serializeRecord (r : ComparisonRecord) : Json :=
  .jobj [ ("player_name", .jstr r.player_name),
          ("prop_type", .jstr r.prop_type),
          ("line", .jnum r.line),
          ("prizepicks_odds", .jnum (r.prizepicks_odds : ℚ)),
          ("pinnacle_over", .jnum r.pinnacle_over),
          ("pinnacle_under", .jnum r.pinnacle_under),
          ("no_vig_over", .jnum r.no_vig_over),
          ("no_vig_under", .jnum r.no_vig_under) ]

/-- Modelled from the spec: serialization of the snapshot returned by the
`/props` endpoint (§6, backend absent from src/): the `props` array,
`last_updated` as epoch seconds, `status`, and `disclaimer` when present. -/
def serializeSnapshot (s : Snapshot) : Json :=
  .jobj ([ ("props", .jarr (s.props.map serializeRecord)),
           ("last_updated", .jnum (s.last_updated : ℚ)),
           ("status", .jstr s.status) ] ++
         (match s.disclaimer with
          | some d => [("disclaimer", .jstr d)]
          | none => []))

/-- The `props` array of a serialized snapshot. -/
def propsArray (j : Json) : List Json :=
  match j.lookup "props" with
  | some (.jarr xs) => xs
  | _ => []

end Backend

namespace Frontend

/-- The eight field names of the frontend `Prop` interface
(`App.tsx` lines 76-85), in declaration order. -/
def propFieldNames : List String :=
  ["player_name", "prop_type", "line", "prizepicks_odds",
   "pinnacle_over", "pinnacle_under", "no_vig_over", "no_vig_under"]

/-- Whether a JSON value structurally matches the frontend `Prop` interface
(`App.tsx` lines 76-85) with no extra fields: an object whose keys are
exactly the eight declared ones, with `player_name`/`prop_type` strings and
the remaining six fields numbers. -/
def matchesPropInterface (j : Json) : Bool :=
  j.keys = propFieldNames &&
  (j.lookup "player_name").any Json.isStr &&
  (j.lookup "prop_type").any Json.isStr &&
  (j.lookup "line").any Json.isNum &&
  (j.lookup "prizepicks_odds").any Json.isNum &&
  (j.lookup "pinnacle_over").any Json.isNum &&
  (j.lookup "pinnacle_under").any Json.isNum &&
  (j.lookup "no_vig_over").any Json.isNum &&
  (j.lookup "no_vig_under").any Json.isNum

/-- The frontend `Prop` interface (`App.tsx` lines 76-85); `Prop` is a
reserved word in Lean, hence the name `PropRecord`.  JavaScript numbers are
modelled as `ℚ`. -/
structure PropRecord where
  player_name : String
  prop_type : String
  line : ℚ
  prizepicks_odds : ℚ
  pinnacle_over : ℚ
  pinnacle_under : ℚ
  no_vig_over : ℚ
  no_vig_under : ℚ
deriving DecidableEq, Repr

/-- The frontend `PropsData` interface (`App.tsx` lines 90-95):
`props`, optional `disclaimer`, `last_updated` (declared `string` in the
source), optional `status`. -/
structure PropsData where
  props : List PropRecord
  disclaimer : Option String
  last_updated : String
  status : Option String
deriving DecidableEq, Repr

/-- The values of the prop-type filter `Select`, in menu order
(`App.tsx` lines 231-241): the `all` pseudo-option followed by the ten
category labels. -/
def propTypeMenuValues : List String :=
  ["all", "Strikeouts", "Hits", "Total Bases", "RBI", "Home Runs", "Walks",
   "Stolen Bases", "Pitching Strikeouts", "Earned Runs", "Innings Pitched"]

end Frontend

/-- Modelled from the spec: the canonical prop-type vocabulary both fetchers
normalize to (§4.2, fetchers absent from src/). -/
def canonicalPropTypes : List String :=
  ["Strikeouts", "Hits", "Total Bases", "RBI", "Home Runs", "Walks",
   "Stolen Bases", "Pitching Strikeouts", "Earned Runs", "Innings Pitched"]

namespace Frontend

/-- The `SortField` union type (`App.tsx` line 87): the eight sortable
columns. -/
inductive SortField where
  | player_name | prop_type | line | prizepicks_odds
  | pinnacle_over | pinnacle_under | no_vig_over | no_vig_under
deriving DecidableEq, Repr

/-- The `SortDirection` union type (`App.tsx` line 88). -/
inductive SortDirection where
  | asc | desc
deriving DecidableEq, Repr

/-- The `(sortField, sortDirection)` component state
(`App.tsx` lines 140-141). -/
structure SortState where
  sortField : SortField
  sortDirection : SortDirection
deriving DecidableEq, Repr

/-- Flip between ascending and descending. -/
def toggleDirection : SortDirection → SortDirection
  | .asc => .desc
  | .desc => .asc

/-- The `handleSort` handler (`App.tsx` lines 163-170): clicking the active column
toggles the direction; clicking another column selects it ascending. -/
def handleSort (field : SortField) (st : SortState) : SortState :=
  if field = st.sortField then
    { st with sortDirection := toggleDirection st.sortDirection }
  else
    { sortField := field, sortDirection := .asc }

/-- A JavaScript value as it appears at a sort field: the string fields
yield strings, the numeric fields numbers. -/
inductive JSVal where
  | str (s : String)
  | num (q : ℚ)
deriving DecidableEq, Repr

/-- The JavaScript `<` comparison as used by the sort comparator: both
operands always come from the same field, so only the homogeneous cases
arise; strings compare lexicographically, numbers numerically. -/
def jsLt : JSVal → JSVal → Bool
  | .str a, .str b => a < b
  | .num a, .num b => a < b
  | _, _ => false

/-- The field access `a[sortField]` (`App.tsx` line 178): project the active sort field out
of a row. -/
def fieldValue : SortField → PropRecord → JSVal
  | .player_name, p => .str p.player_name
  | .prop_type, p => .str p.prop_type
  | .line, p => .num p.line
  | .prizepicks_odds, p => .num p.prizepicks_odds
  | .pinnacle_over, p => .num p.pinnacle_over
  | .pinnacle_under, p => .num p.pinnacle_under
  | .no_vig_over, p => .num p.no_vig_over
  | .no_vig_under, p => .num p.no_vig_under

/-- The sort comparator (`App.tsx` lines 177-186) over nullable values:
a `null` left operand returns 1 and a `null` right operand returns -1,
both before the direction sign is applied; otherwise the three-way
comparison is negated for descending order. -/
def sortComparator (lt : α → α → Bool) (dir : SortDirection)
    (a b : Option α) : Int :=
  match a with
  | none => 1
  | some aValue =>
    match b with
    | none => -1
    | some bValue =>
      let comparison : Int :=
        if lt aValue bValue then -1 else if lt bValue aValue then 1 else 0
      match dir with
      | .asc => comparison
      | .desc => -comparison

/-- Insert into a list sorted by a JavaScript-style comparator, keeping the
new element before the first element it does not compare after. -/
def insertByCmp (cmp : α → α → Int) (x : α) : List α → List α
  | [] => [x]
  | y :: ys => if cmp x y ≤ 0 then x :: y :: ys else y :: insertByCmp cmp x ys

/-- A deterministic comparator sort modelling `Array.prototype.sort`. -/
def sortByCmp (cmp : α → α → Int) : List α → List α
  | [] => []
  | x :: xs => insertByCmp cmp x (sortByCmp cmp xs)

/-- Whether `needle` is a leading segment of `hay`. -/
def startsWithSeq [BEq α] : List α → List α → Bool
  | [], _ => true
  | _ :: _, [] => false
  | a :: as, b :: bs => a == b && startsWithSeq as bs

/-- Whether `needle` occurs contiguously inside `hay`. -/
def containsSeq [BEq α] (needle : List α) : List α → Bool
  | [] => startsWithSeq needle []
  | b :: bs => startsWithSeq needle (b :: bs) || containsSeq needle bs

/-- JavaScript `hay.includes(needle)` on strings. -/
def stringIncludes (hay needle : String) : Bool :=
  containsSeq needle.data hay.data

/-- JavaScript `toLowerCase()`. -/
def toLowerCase (s : String) : String := s.map Char.toLower

/-- The full filter/sort-relevant local state of `PropsTable`
(`App.tsx` lines 138-141). -/
structure UIState where
  searchTerm : String
  selectedPropType : String
  sortField : SortField
  sortDirection : SortDirection
deriving DecidableEq, Repr

/-- The filter predicate (`App.tsx` lines 173-176): case-insensitive
substring match on the player name, and either the `all` pseudo-option or
an exact prop-type match. -/
def propFilter (st : UIState) (p : PropRecord) : Bool :=
  stringIncludes (toLowerCase p.player_name) (toLowerCase st.searchTerm) &&
  (st.selectedPropType == "all" || p.prop_type == st.selectedPropType)

/-- The row comparator with the active sort field projected out
(`App.tsx` lines 177-186); field values of a `Prop` are never `null`, so
both operands are `some`. -/
def rowComparator (st : UIState) (a b : PropRecord) : Int :=
  sortComparator jsLt st.sortDirection
    (some (fieldValue st.sortField a)) (some (fieldValue st.sortField b))

/-- The `filteredAndSortedData` pipeline (`App.tsx` lines 172-186): filter the props,
then sort the filtered copy by the comparator. -/
def filteredAndSortedData (d : PropsData) (st : UIState) : List PropRecord :=
  sortByCmp (rowComparator st) (d.props.filter (propFilter st))

/-- JavaScript `Math.round`-style rounding used by `toFixed`: the nearest
integer, ties to the larger one. -/
def roundTie (x : ℚ) : ℤ := ⌊x + 1 / 2⌋

/-- The exact value denoted by the string `q.toFixed(2)`: `q` rounded to
two decimal places, ties away from the smaller candidate. -/
def toFixed2 (q : ℚ) : ℚ := (roundTie (q * 100) : ℚ) / 100

/-- One rendered table cell.  Text cells hold the string; numeric cells
hold the exact value the printed string denotes (for `.toFixed(2)` cells,
the two-decimal rounding of the field).  The comparison cell holds the two
rounded differences and the two better/worse flags of `OddsComparison`. -/
inductive Cell where
  | text (s : String)
  | num (q : ℚ)
  | cmp (overDiff underDiff : ℚ) (overBetter underBetter : Bool)
deriving DecidableEq, Repr

/-- One `TableRow` of the body (`App.tsx` lines 339-355): player, prop
type, raw line, raw PrizePicks odds, the four `.toFixed(2)` columns, and
the `OddsComparison` cell (`App.tsx` lines 109-135). -/
def renderRow (p : PropRecord) : List Cell :=
  [ .text p.player_name,
    .text p.prop_type,
    .num p.line,
    .num p.prizepicks_odds,
    .num (toFixed2 p.pinnacle_over),
    .num (toFixed2 p.pinnacle_under),
    .num (toFixed2 p.no_vig_over),
    .num (toFixed2 p.no_vig_under),
    .cmp (toFixed2 (p.prizepicks_odds - p.pinnacle_over))
         (toFixed2 (p.prizepicks_odds - p.pinnacle_under))
         (decide (p.prizepicks_odds - p.pinnacle_over > 0))
         (decide (p.prizepicks_odds - p.pinnacle_under > 0)) ]

/-- The table body (`App.tsx` lines 338-356): one rendered row per entry
of `filteredAndSortedData`. -/
def renderTable (d : PropsData) (st : UIState) : List (List Cell) :=
  (filteredAndSortedData d st).map renderRow

/-- The display-time conversion of `last_updated` (`App.tsx` line 153):
`new Date(data.last_updated * 1000)` builds a `Date` from the raw value
multiplied by 1000, interpreted as epoch milliseconds. -/
def displayDateMillis (last_updated : ℚ) : ℚ := last_updated * 1000

/-- The instant a JavaScript `Date` built from `ms` epoch milliseconds
denotes, expressed in epoch seconds. -/
def dateEpochSeconds (ms : ℚ) : ℚ := ms / 1000

end Frontend

namespace Backend

/-- The side of a raw prop record (§3). -/
inductive Side where
  | over | under | single
deriving DecidableEq, Repr

/-- The originating book of a raw prop record (§3). -/
inductive Source where
  | retail | reference
deriving DecidableEq, Repr

/-- Modelled from the spec: `RawProp` (§3, backend absent from src/). -/
structure RawProp where
  player_name : String
  prop_type : String
  line : ℚ
  side : Side
  odds : Int
  source : Source
deriving DecidableEq, Repr

/-- Modelled from the spec: the case/whitespace-insensitive normalization
applied to the string components of a `MatchKey` (§3): drop whitespace and
lowercase the remaining characters. -/
def normKey (s : String) : List Char :=
  (s.data.filter (fun c => !c.isWhitespace)).map Char.toLower

/-- Modelled from the spec: `MatchKey` of a record (§3): normalized player
name, normalized prop type, and the exact line. -/
def matchKey (r : RawProp) : List Char × List Char × ℚ :=
  (normKey r.player_name, normKey r.prop_type, r.line)

/-- Modelled from the spec: the reference group at a key (§4.4): require
exactly one over and one under entry (two entries in total); a group with a
missing side, a duplicate side, or more than two entries is dropped. -/
def refGroup (reference : List RawProp) (k : List Char × List Char × ℚ) :
    Option (RawProp × RawProp) :=
  let grp := reference.filter (fun r => matchKey r = k)
  match grp.length, grp.filter (fun r => r.side = Side.over),
        grp.filter (fun r => r.side = Side.under) with
  | 2, [o], [u] => some (o, u)
  | _, _, _ => none

/-- Modelled from the spec: the retail index (§4.4): at most one record per
key, last-seen wins; a record is kept only if no later record shares its
key, preserving input order. -/
def retailDedup : List RawProp → List RawProp
  | [] => []
  | r :: rest =>
    if rest.any (fun s => matchKey s = matchKey r) then retailDedup rest
    else r :: retailDedup rest

/-- Modelled from the spec: `match(retail, reference)` (§4.4, backend absent
from src/): for every indexed retail record whose key has a complete
reference group, emit the triple (retail, over, under); everything else is
silently excluded, in retail input order. -/
def matchProps (retail reference : List RawProp) :
    List (RawProp × RawProp × RawProp) :=
  (retailDedup retail).filterMap (fun r =>
    (refGroup reference (matchKey r)).map (fun g => (r, g.1, g.2)))

end Backend

/-- C3: the canonical prop-type vocabulary shared by both fetchers and
surfaced to the user is exactly the ten categories of §4.2, and the
frontend's prop-type filter enumerates exactly this set plus the `all`
pseudo-option. -/
theorem C3_prop_type_vocabulary :
    Frontend.propTypeMenuValues = "all" :: canonicalPropTypes := rfl

/-- C4: the frontend turns `last_updated` into a display time by
multiplying by 1000 and building a `Date` from the product as epoch
milliseconds; the resulting instant has epoch-seconds equal to the raw
value, so the display is correct exactly when the raw value is the
intended instant's epoch seconds. -/
theorem C4_last_updated_epoch_seconds (v t : ℚ) :
    Frontend.dateEpochSeconds (Frontend.displayDateMillis v) = t ↔ v = t := by
  unfold Frontend.dateEpochSeconds Frontend.displayDateMillis
  rw [mul_div_assoc]
  norm_num

/-- C8: in the sort comparator, a `null` value at the active sort field
orders its row after every row with a non-null value, for both directions:
the comparator returns 1 when the left value is `null` and -1 when the
right value is `null`, before the direction sign is applied. -/
theorem C8_null_ordered_last (dir : Frontend.SortDirection)
    (v : Frontend.JSVal) :
    Frontend.sortComparator Frontend.jsLt dir none (some v) = 1 ∧
    Frontend.sortComparator Frontend.jsLt dir (some v) none = -1 := by
  cases dir <;> simp [Frontend.sortComparator]

/-- C10: `handleSort` on the active field toggles the direction and keeps
the field; on another field it selects that field ascending; and two
clicks on the currently-active field restore the original state. -/
theorem C10_handleSort_toggle (st : Frontend.SortState)
    (f : Frontend.SortField) :
    (f = st.sortField →
      Frontend.handleSort f st =
        ⟨st.sortField, Frontend.toggleDirection st.sortDirection⟩) ∧
    (f ≠ st.sortField →
      Frontend.handleSort f st = ⟨f, Frontend.SortDirection.asc⟩) ∧
    (f = st.sortField →
      Frontend.handleSort f (Frontend.handleSort f st) = st) := by
  refine ⟨fun h => ?_, fun h => ?_, fun h => ?_⟩
  · subst h; simp [Frontend.handleSort]
  · simp [Frontend.handleSort, h]
  · subst h
    cases st with
    | mk sf sd => cases sd <;> simp [Frontend.handleSort, Frontend.toggleDirection]

/-- Witness for C10 at concrete states: a click on the active `line`
column toggles desc to asc, a click on an inactive column selects it
ascending, and a double click on the active column is the identity. -/
theorem C10_handleSort_toggle_witness :
    Frontend.handleSort .line ⟨.line, .desc⟩ = ⟨.line, .asc⟩ ∧
    Frontend.handleSort .line ⟨.no_vig_over, .desc⟩ = ⟨.line, .asc⟩ ∧
    Frontend.handleSort .line (Frontend.handleSort .line ⟨.line, .desc⟩) =
      ⟨.line, .desc⟩ :=
  ⟨(C10_handleSort_toggle ⟨.line, .desc⟩ .line).1 rfl,
   (C10_handleSort_toggle ⟨.no_vig_over, .desc⟩ .line).2.1 (by decide),
   (C10_handleSort_toggle ⟨.line, .desc⟩ .line).2.2 rfl⟩

/-- C2: for decimal odds `o, u > 1`, `no_vig_probabilities` succeeds with
`p_over = (1/o)/(1/o + 1/u)` and `p_under = (1/u)/(1/o + 1/u)`; in exact
rational arithmetic their sum is exactly 1 (hence within the 1e-9 floating
tolerance) and both lie strictly in (0, 1). -/
theorem C2_no_vig_probabilities (o u : ℚ) (ho : 1 < o) (hu : 1 < u) :
    ∃ po pu, OddsCore.no_vig_probabilities o u = .ok (po, pu) ∧
      po = (1 / o) / (1 / o + 1 / u) ∧ pu = (1 / u) / (1 / o + 1 / u) ∧
      po + pu = 1 ∧ 0 < po ∧ po < 1 ∧ 0 < pu ∧ pu < 1 := by
  have ho0 : 0 < o := lt_trans one_pos ho
  have hu0 : 0 < u := lt_trans one_pos hu
  have hio : 0 < 1 / o := by positivity
  have hiu : 0 < 1 / u := by positivity
  have hsum : 0 < 1 / o + 1 / u := by positivity
  refine ⟨_, _, ?_, rfl, rfl, ?_, ?_, ?_, ?_, ?_⟩
  · unfold OddsCore.no_vig_probabilities
    rw [if_neg (by push_neg; exact ⟨ho, hu⟩), if_neg (not_le.mpr hsum)]
  · rw [div_add_div_same, div_self hsum.ne']
  · exact div_pos hio hsum
  · exact (div_lt_one hsum).mpr (lt_add_of_pos_right _ hiu)
  · exact div_pos hiu hsum
  · exact (div_lt_one hsum).mpr (lt_add_of_pos_left _ hio)

/-- Witness for C2 at the concrete market (2, 3): both hypotheses hold and
the theorem yields the normalized pair. -/
theorem C2_no_vig_probabilities_witness :
    (1 : ℚ) < 2 ∧ (1 : ℚ) < 3 ∧
    (∃ po pu, OddsCore.no_vig_probabilities 2 3 = .ok (po, pu) ∧
      po = (1 / (2:ℚ)) / (1 / 2 + 1 / 3) ∧ pu = (1 / (3:ℚ)) / (1 / 2 + 1 / 3) ∧
      po + pu = 1 ∧ 0 < po ∧ po < 1 ∧ 0 < pu ∧ pu < 1) :=
  ⟨by norm_num, by norm_num,
   C2_no_vig_probabilities 2 3 (by norm_num) (by norm_num)⟩

/-- C6: `american_to_decimal` returns `1 + odds/100` for odds ≥ 100,
`1 + 100/|odds|` for odds ≤ -100, and fails with `InvalidOddsError`
exactly on the exclusive range (-100, 100); concretely 110 ↦ 21/10,
-110 ↦ 21/11 (≈ 1.9091), and 50 fails. -/
theorem C6_american_to_decimal (odds : Int) :
    (100 ≤ odds →
      OddsCore.american_to_decimal odds = .ok (1 + (odds : ℚ) / 100)) ∧
    (odds ≤ -100 →
      OddsCore.american_to_decimal odds = .ok (1 + 100 / ((|odds| : Int) : ℚ))) ∧
    (-100 < odds → odds < 100 →
      OddsCore.american_to_decimal odds = .error .invalidOdds) ∧
    OddsCore.american_to_decimal 110 = .ok (21 / 10) ∧
    OddsCore.american_to_decimal (-110) = .ok (21 / 11) ∧
    OddsCore.american_to_decimal 50 = .error .invalidOdds := by
  refine ⟨fun h => ?_, fun h => ?_, fun h1 h2 => ?_, ?_, ?_, ?_⟩
  · simp [OddsCore.american_to_decimal, h]
  · rw [abs_of_nonpos (le_trans h (by norm_num))]
    have hn : ¬ (100 : Int) ≤ odds := by omega
    simp [OddsCore.american_to_decimal, hn, h]
  · have h3 : ¬ (100 : Int) ≤ odds := by omega
    have h4 : ¬ odds ≤ -100 := by omega
    simp [OddsCore.american_to_decimal, h3, h4]
  · norm_num [OddsCore.american_to_decimal]
  · norm_num [OddsCore.american_to_decimal]
  · norm_num [OddsCore.american_to_decimal]

/-- Witness for C6: each of the three guarded branches discharged at a
concrete American price (110, -110, 50). -/
theorem C6_american_to_decimal_witness :
    ((100 : Int) ≤ 110 ∧
      OddsCore.american_to_decimal 110 = .ok (1 + ((110 : Int) : ℚ) / 100)) ∧
    ((-110 : Int) ≤ -100 ∧
      OddsCore.american_to_decimal (-110) =
        .ok (1 + 100 / ((|(-110 : Int)| : Int) : ℚ))) ∧
    ((-100 : Int) < 50 ∧ (50 : Int) < 100 ∧
      OddsCore.american_to_decimal 50 = .error .invalidOdds) :=
  ⟨⟨by norm_num, (C6_american_to_decimal 110).1 (by norm_num)⟩,
   ⟨by norm_num, (C6_american_to_decimal (-110)).2.1 (by norm_num)⟩,
   ⟨by norm_num, by norm_num,
    (C6_american_to_decimal 50).2.2.1 (by norm_num) (by norm_num)⟩⟩

/-- C5: the four `.toFixed(2)` columns of a rendered row (pinnacle over,
pinnacle under, no-vig over, no-vig under) display exactly the field value
rounded to two decimal places: each such cell is `toFixed2` of the field,
every `toFixed2` value is an integer number of hundredths, and it differs
from the field by at most half a hundredth. -/
theorem C5_toFixed2_rendering (p : Frontend.PropRecord) :
    (Frontend.renderRow p)[4]? = some (.num (Frontend.toFixed2 p.pinnacle_over)) ∧
    (Frontend.renderRow p)[5]? = some (.num (Frontend.toFixed2 p.pinnacle_under)) ∧
    (Frontend.renderRow p)[6]? = some (.num (Frontend.toFixed2 p.no_vig_over)) ∧
    (Frontend.renderRow p)[7]? = some (.num (Frontend.toFixed2 p.no_vig_under)) ∧
    (∀ q : ℚ, ∃ n : ℤ, Frontend.toFixed2 q = (n : ℚ) / 100) ∧
    (∀ q : ℚ, |Frontend.toFixed2 q - q| ≤ 1 / 200) := by
  refine ⟨rfl, rfl, rfl, rfl,
    fun q => ⟨Frontend.roundTie (q * 100), rfl⟩, fun q => ?_⟩
  unfold Frontend.toFixed2 Frontend.roundTie
  have h1 : ((⌊q * 100 + 1 / 2⌋ : ℤ) : ℚ) ≤ q * 100 + 1 / 2 := Int.floor_le _
  have h2 : q * 100 + 1 / 2 < ((⌊q * 100 + 1 / 2⌋ : ℤ) : ℚ) + 1 :=
    Int.lt_floor_add_one _
  have h3 : ((⌊q * 100 + 1 / 2⌋ : ℤ) : ℚ) / 100 - q =
      (((⌊q * 100 + 1 / 2⌋ : ℤ) : ℚ) - q * 100) / 100 := by ring
  have h4 : |((⌊q * 100 + 1 / 2⌋ : ℤ) : ℚ) - q * 100| ≤ 1 / 2 :=
    abs_le.mpr ⟨by linarith, by linarith⟩
  rw [h3, abs_div, abs_of_pos (by norm_num : (0 : ℚ) < 100)]
  linarith

/-- C9: the rendered table body depends only on the `props` array and the
local filter/sort state; two responses agreeing on `props` (and
`last_updated`) but differing in `status` and/or `disclaimer` render
identical rows, since neither field is read in filtering, sorting, or
rendering. -/
theorem C9_rows_ignore_status_disclaimer (d1 d2 : Frontend.PropsData)
    (st : Frontend.UIState) (hp : d1.props = d2.props)
    (_hl : d1.last_updated = d2.last_updated) :
    Frontend.renderTable d1 st = Frontend.renderTable d2 st := by
  unfold Frontend.renderTable Frontend.filteredAndSortedData
  rw [hp]

/-- Witness for C9: two concrete responses with the same single prop but
different `status` and `disclaimer` render the same table body. -/
theorem C9_rows_ignore_status_disclaimer_witness :
    Frontend.renderTable
      ⟨[⟨"Alice", "Hits", 3 / 2, 110, 19 / 10, 21 / 10, 11 / 21, 10 / 21⟩],
       none, "12:00:00", some "ok"⟩
      ⟨"", "all", .no_vig_over, .desc⟩ =
    Frontend.renderTable
      ⟨[⟨"Alice", "Hits", 3 / 2, 110, 19 / 10, 21 / 10, 11 / 21, 10 / 21⟩],
       some "for entertainment only", "12:00:00", some "stale"⟩
      ⟨"", "all", .no_vig_over, .desc⟩ :=
  C9_rows_ignore_status_disclaimer _ _ _ rfl rfl

/-- C1: every element of the serialized `props` array has exactly the eight
fields of the frontend `Prop` interface, with `line` and the five odds
fields numeric and the two name fields strings; the enclosing payload
carries `last_updated` and `status`, and carries `disclaimer` exactly when
the snapshot has one, consistent with `PropsData`'s optional fields. -/
theorem C1_snapshot_payload_shape (s : Backend.Snapshot) :
    (∀ j ∈ Backend.propsArray (Backend.serializeSnapshot s),
        Json.keys j = Frontend.propFieldNames ∧
        Frontend.matchesPropInterface j = true) ∧
    Json.hasKey "last_updated" (Backend.serializeSnapshot s) = true ∧
    Json.hasKey "status" (Backend.serializeSnapshot s) = true ∧
    Json.hasKey "disclaimer" (Backend.serializeSnapshot s) = s.disclaimer.isSome := by
  refine ⟨?_, rfl, rfl, ?_⟩
  · intro j hj
    have harr : Backend.propsArray (Backend.serializeSnapshot s) =
        s.props.map Backend.serializeRecord := rfl
    rw [harr, List.mem_map] at hj
    obtain ⟨r, -, rfl⟩ := hj
    exact ⟨rfl, rfl⟩
  · cases h : s.disclaimer <;> simp only [Backend.serializeSnapshot, h] <;> rfl

/-- Witness for C1 at a concrete one-record snapshot: the serialized record
is in the `props` array and has exactly the eight typed fields, and the
payload carries `last_updated`. -/
theorem C1_snapshot_payload_shape_witness :
    (Json.keys (Backend.serializeRecord
        ⟨"Alice", "Hits", 3 / 2, 110, 19 / 10, 21 / 10, 11 / 21, 10 / 21⟩) =
       Frontend.propFieldNames ∧
     Frontend.matchesPropInterface (Backend.serializeRecord
        ⟨"Alice", "Hits", 3 / 2, 110, 19 / 10, 21 / 10, 11 / 21, 10 / 21⟩) = true) ∧
    Json.hasKey "last_updated" (Backend.serializeSnapshot
      ⟨[⟨"Alice", "Hits", 3 / 2, 110, 19 / 10, 21 / 10, 11 / 21, 10 / 21⟩],
       1736000000, "ok", some "for entertainment only"⟩) = true :=
  ⟨(C1_snapshot_payload_shape
      ⟨[⟨"Alice", "Hits", 3 / 2, 110, 19 / 10, 21 / 10, 11 / 21, 10 / 21⟩],
       1736000000, "ok", some "for entertainment only"⟩).1 _
      (List.mem_singleton.mpr rfl),
   (C1_snapshot_payload_shape
      ⟨[⟨"Alice", "Hits", 3 / 2, 110, 19 / 10, 21 / 10, 11 / 21, 10 / 21⟩],
       1736000000, "ok", some "for entertainment only"⟩).2.1⟩

/-- The retail index keeps exactly one record per key present in the input:
counting records at key `k` after last-seen-wins deduplication gives 1 when
some input record has key `k` and 0 otherwise. -/
theorem Backend.countP_retailDedup (retail : List Backend.RawProp)
    (k : List Char × List Char × ℚ) :
    (Backend.retailDedup retail).countP (fun r => Backend.matchKey r = k) =
      if retail.any (fun r => Backend.matchKey r = k) then 1 else 0 := by
  induction retail with
  | nil => rfl
  | cons r rest ih =>
    simp only [Backend.retailDedup, List.any_cons]
    by_cases hd : rest.any (fun s => Backend.matchKey s = Backend.matchKey r) = true
    · rw [if_pos hd, ih]
      by_cases hk : Backend.matchKey r = k
      · rw [hk] at hd
        simp [hk, hd]
      · simp [hk]
    · rw [if_neg hd, List.countP_cons, ih]
      by_cases hk : Backend.matchKey r = k
      · rw [hk] at hd
        simp [hk, hd]
      · simp [hk]

/-- Counting emitted triples at key `k` equals counting indexed retail
records at `k` whose key has a complete reference group. -/
theorem Backend.countP_matchTriples (reference : List Backend.RawProp)
    (k : List Char × List Char × ℚ) (l : List Backend.RawProp) :
    (l.filterMap (fun r =>
        (Backend.refGroup reference (Backend.matchKey r)).map
          (fun g => (r, g.1, g.2)))).countP
        (fun t => Backend.matchKey t.1 = k) =
      l.countP (fun r =>
        Backend.matchKey r = k ∧
        (Backend.refGroup reference (Backend.matchKey r)).isSome = true) := by
  induction l with
  | nil => rfl
  | cons r rest ih =>
    rw [List.filterMap_cons]
    cases hr : Backend.refGroup reference (Backend.matchKey r) with
    | none => simp only [hr, Option.map_none', List.countP_cons, ih]; simp
    | some g =>
      simp only [hr, Option.map_some', List.countP_cons, ih]
      simp

/-- C7: `match(retail, reference)` is an inner join on `MatchKey`: for every
key `k`, the output contains exactly one triple at `k` when some retail
record has key `k` and the reference group at `k` is complete (exactly one
over and one under), and zero triples at `k` otherwise; moreover each
emitted triple pairs the retail record with its key's complete reference
group. -/
theorem C7_match_inner_join (retail reference : List Backend.RawProp)
    (k : List Char × List Char × ℚ) :
    ((Backend.matchProps retail reference).countP
        (fun t => Backend.matchKey t.1 = k) =
      if (retail.any (fun r => Backend.matchKey r = k)) = true ∧
         (Backend.refGroup reference k).isSome = true
      then 1 else 0) ∧
    (∀ t ∈ Backend.matchProps retail reference,
      Backend.refGroup reference (Backend.matchKey t.1) = some (t.2.1, t.2.2)) := by
  constructor
  · unfold Backend.matchProps
    rw [Backend.countP_matchTriples]
    by_cases hg : (Backend.refGroup reference k).isSome = true
    · have hcongr : ∀ r ∈ Backend.retailDedup retail,
          (decide (Backend.matchKey r = k ∧
            (Backend.refGroup reference (Backend.matchKey r)).isSome = true)) = true ↔
          (decide (Backend.matchKey r = k)) = true := by
        intro r _
        constructor
        · intro h
          exact decide_eq_true (decide_eq_true_eq.mp h).1
        · intro h
          have hk := of_decide_eq_true h
          refine decide_eq_true ⟨hk, ?_⟩
          rw [hk]
          exact hg
      rw [List.countP_congr hcongr, Backend.countP_retailDedup]
      simp [hg]
    · rw [if_neg (fun hc => hg hc.2)]
      refine List.countP_eq_zero.mpr fun r _ h => ?_
      obtain ⟨hk, hs⟩ := of_decide_eq_true h
      rw [hk] at hs
      exact hg hs
  · intro t ht
    unfold Backend.matchProps at ht
    rw [List.mem_filterMap] at ht
    obtain ⟨r, -, hf⟩ := ht
    cases hr : Backend.refGroup reference (Backend.matchKey r) with
    | none => rw [hr] at hf; exact absurd hf (by simp)
    | some g =>
      rw [hr, Option.map_some'] at hf
      cases hf
      exact hr

/-- Witness for C7 at the spec's concrete example: a complete over/under
reference pair yields exactly the one triple, a reference list missing the
under side yields zero triples, and the theorem applied at the retail
record's key returns its complete reference group. -/
theorem C7_match_inner_join_witness :
    Backend.matchProps
        [⟨"Alice", "Hits", 2, .single, 120, .retail⟩]
        [⟨"Alice", "Hits", 2, .over, -110, .reference⟩,
         ⟨"Alice", "Hits", 2, .under, -115, .reference⟩] =
      [(⟨"Alice", "Hits", 2, .single, 120, .retail⟩,
        ⟨"Alice", "Hits", 2, .over, -110, .reference⟩,
        ⟨"Alice", "Hits", 2, .under, -115, .reference⟩)] ∧
    Backend.matchProps
        [⟨"Alice", "Hits", 2, .single, 120, .retail⟩]
        [⟨"Alice", "Hits", 2, .over, -110, .reference⟩] = [] ∧
    Backend.refGroup
        [⟨"Alice", "Hits", 2, .over, -110, .reference⟩,
         ⟨"Alice", "Hits", 2, .under, -115, .reference⟩]
        (Backend.matchKey
          (⟨"Alice", "Hits", 2, .single, 120, .retail⟩ : Backend.RawProp)) =
      some (⟨"Alice", "Hits", 2, .over, -110, .reference⟩,
            ⟨"Alice", "Hits", 2, .under, -115, .reference⟩) :=
  ⟨by decide, by decide,
   (C7_match_inner_join
      [⟨"Alice", "Hits", 2, .single, 120, .retail⟩]
      [⟨"Alice", "Hits", 2, .over, -110, .reference⟩,
       ⟨"Alice", "Hits", 2, .under, -115, .reference⟩]
      (Backend.matchKey ⟨"Alice", "Hits", 2, .single, 120, .retail⟩)).2
     (⟨"Alice", "Hits", 2, .single, 120, .retail⟩,
      ⟨"Alice", "Hits", 2, .over, -110, .reference⟩,
      ⟨"Alice", "Hits", 2, .under, -115, .reference⟩) (by decide)⟩
